import Mathlib

/-! Shallow embedding of the HuaWei image-classification training pipeline:
the sample index builder and fold splitter of src/datasets/create_dataset.py
and the training/validation controller of src/train_classifier.py.
Filenames and line fields are embedded as lists of characters; the opaque
deep-learning collaborators (model forward pass, loss criterion, metrics
reporter, sklearn splitters) are either abstracted into per-batch data or
modelled from the spec where noted. -/

/-- Python runtime errors that the embedded code can raise. -/
inductive PyErr where
  | indexError : PyErr
  | zeroDivisionError : PyErr
  | valueError : String → PyErr
deriving DecidableEq

/-- Python division: raises ZeroDivisionError on a zero denominator. -/
def pydiv (a b : ℚ) : Except PyErr ℚ :=
  if b = 0 then .error .zeroDivisionError else .ok (a / b)

/-- Python str.split with a one-character separator: every occurrence of the
separator ends a segment; the result is never the empty list. -/
def pySplitChar (sep : Char) : List Char → List (List Char)
  | [] => [[]]
  | c :: rest =>
    if c = sep then [] :: pySplitChar sep rest
    else
      match pySplitChar sep rest with
      | [] => [[c]]
      | seg :: segs => (c :: seg) :: segs

/-- Python str.split with the two-character separator of annotation lines
(a comma followed by a space), scanning left to right. -/
def splitCommaSpace : List Char → List (List Char)
  | [] => [[]]
  | ',' :: ' ' :: rest => [] :: splitCommaSpace rest
  | c :: rest =>
    match splitCommaSpace rest with
    | [] => [[c]]
    | seg :: segs => (c :: seg) :: segs

/-- Decimal value of a digit string; none when any character is not a digit. -/
def digitsVal (ds : List Char) : Option Nat :=
  ds.foldl
    (fun acc c =>
      acc.bind (fun a => if c.isDigit then some (10 * a + (c.toNat - 48)) else none))
    (some 0)

/-- Spaces, tabs, newlines and carriage returns, as stripped by Python int(). -/
def isPyWhitespace (c : Char) : Bool :=
  c == ' ' || c == '\n' || c == '\t' || c == '\r'

/-- Python int(str): strip surrounding whitespace, allow one optional sign,
then require a nonempty run of decimal digits. -/
def pyInt (s : List Char) : Option Int :=
  let t := (s.dropWhile isPyWhitespace).reverse
  let t := (t.dropWhile isPyWhitespace).reverse
  match t with
  | [] => none
  | '-' :: ds => if ds = [] then none else (digitsVal ds).map (fun n => -(n : Int))
  | '+' :: ds => if ds = [] then none else (digitsVal ds).map (fun n => (n : Int))
  | ds => (digitsVal ds).map (fun n => (n : Int))

/-- A directory: the file names returned by os.listdir, and each file's lines
(newline characters stripped; Python int() ignores trailing whitespace, so the
parsed labels are unaffected by this convention). -/
structure Dir where
  listing : List (List Char)
  content : List Char → List (List Char)

/-- The filter on line 226 of create_dataset.py: a file name f is kept exactly
when f.split(".")[1] == "txt"; indexing raises IndexError when the name
contains no dot. -/
def selectTxtFiles : List (List Char) → Except PyErr (List (List Char))
  | [] => .ok []
  | f :: rest =>
    match (pySplitChar '.' f).get? 1 with
    | none => .error .indexError
    | some seg =>
      (selectTxtFiles rest).map (fun r => if seg = ['t', 'x', 't'] then f :: r else r)

/-- One annotation line (lines 234-235 of create_dataset.py): split on the
comma-space delimiter, the sample name is field 0 and the label int(field 1). -/
def parseLine (line : List Char) : Except PyErr (List Char × Int) :=
  let parts := splitCommaSpace line
  match parts.get? 1 with
  | none => .error .indexError
  | some s =>
    match pyInt s with
    | none => .error (.valueError ("invalid literal for int() with base 10"))
    | some k => .ok (parts.headD [], k)

/-- Parse every line of one annotation file, in order. -/
def parseLines : List (List Char) → Except PyErr (List (List Char) × List Int)
  | [] => .ok ([], [])
  | line :: rest => do
    let p ← parseLine line
    let r ← parseLines rest
    .ok (p.1 :: r.1, p.2 :: r.2)

/-- Parse every annotation file of the directory, appending samples and labels
in file-enumeration order. -/
def parseFiles (d : Dir) : List (List Char) → Except PyErr (List (List Char) × List Int)
  | [] => .ok ([], [])
  | f :: rest => do
    let a ← parseLines (d.content f)
    let b ← parseFiles d rest
    .ok (a.1 ++ b.1, a.2 ++ b.2)

/-- GetDataloader.get_samples_labels (lines 223-238 of create_dataset.py):
filter the listing down to annotation files, then parse every line of each. -/
def get_samples_labels (d : Dir) : Except PyErr (List (List Char) × List Int) := do
  let anns ← selectTxtFiles d.listing
  parseFiles d anns

/-- Python truthiness of the optional test_size argument: None and 0 are falsy. -/
def falsyTestSize : Option ℚ → Bool
  | none => true
  | some q => q == 0

/-- GetDataloader constructor (lines 89-105 of create_dataset.py): builds the
sample index first, then opens label_names_path and json-decodes it into
label_to_name — label_names_load is the outcome of that open plus json.load,
external I/O passed in as a parameter, and its failure aborts construction
before the configuration check — and only then raises the configuration
ValueError when folds_split is 1 and test_size is falsy; otherwise the
object's fields are available. -/
def GetDataloader_init {J : Type} (d : Dir) (label_names_load : Except PyErr J)
    (folds_split : Nat) (test_size : Option ℚ) :
    Except PyErr ((List (List Char) × List Int) × J × Nat × Option ℚ) := do
  let sl ← get_samples_labels d
  let label_to_name ← label_names_load
  if folds_split = 1 ∧ falsyTestSize test_size then
    .error (.valueError ("You must specified test_size when folds_split equal to 1."))
  else
    .ok (sl, label_to_name, folds_split, test_size)

/-- Modelled from the spec: the seeded shuffle inside the sklearn splitters.
The MT19937 generator itself is out of scope; what the claims depend on is
that the shuffle is a permutation of its input determined only by the seed
and the input, which a seed-indexed rotation provides. -/
def seededShuffle (seed : Nat) (l : List Nat) : List Nat :=
  l.rotate (seed % (l.length + 1))

/-- Modelled from the spec: sklearn train_test_split with stratify and a
random_state argument; when random_state is None the ambient global generator
state (the entropy argument) is used instead.  The validation side receives
ceil(test_size times n) elements of the shuffled index list and the train side
the rest; the per-class balancing of the stratified variant is not captured,
only the partition itself. -/
def train_test_split (random_state : Option Nat) (entropy : Nat) (test_size : ℚ)
    (idx : List Nat) : List Nat × List Nat :=
  let seed := random_state.getD entropy
  let shuffled := seededShuffle seed idx
  let n_test := (⌈test_size * idx.length⌉).toNat
  (shuffled.drop n_test, shuffled.take n_test)

/-- GetDataloader.get_data_split_single (lines 197-206 of create_dataset.py):
build the index range, split it with train_test_split under random_state 69,
then project samples and labels through the two index lists. -/
def get_data_split_single (entropy : Nat) (test_size : ℚ)
    (samples : List (List Char)) (labels : List Int) :
    List (List (List Char) × List Int) × List (List (List Char) × List Int) :=
  let idx := List.range samples.length
  let p := train_test_split (some 69) entropy test_size idx
  ([(p.1.map (fun i => samples.getD i []), p.1.map (fun i => labels.getD i 0))],
   [(p.2.map (fun i => samples.getD i []), p.2.map (fun i => labels.getD i 0))])

/-- The number of earlier positions carrying the same label as position i
(the rank of index i inside its own class). -/
def classRank (labels : List Int) (i : Nat) : Nat :=
  ((List.range i).filter (fun j => decide (labels.getD j 0 = labels.getD i 0))).length

/-- Modelled from the spec: the fold assignment of sklearn StratifiedKFold
with shuffling — each class's members are dealt round-robin across the folds,
the seed rotating the deal.  It stands in for the MT19937-driven assignment;
the claims rely on every index landing in exactly one fold below the fold
count, which any such assignment satisfies. -/
def skfAssign (seed folds : Nat) (labels : List Int) (i : Nat) : Nat :=
  (classRank labels i + seed) % folds

/-- Modelled from the spec: sklearn StratifiedKFold(n_splits, shuffle,
random_state).split — it validates the fold count against the sample and
class sizes before yielding any partition, then yields for each fold k the
(train, validation) index pair, validation being the indices assigned to
fold k and train all the others. -/
def skf_split (folds : Nat) (shuffle : Bool) (random_state : Option Nat)
    (entropy : Nat) (labels : List Int) :
    Except PyErr (List (List Nat × List Nat)) :=
  if folds < 2 then
    .error (.valueError ("k-fold cross-validation requires at least 2 splits"))
  else if labels.length < folds then
    .error (.valueError ("cannot have number of splits greater than the number of samples"))
  else if labels.any (fun c => decide (labels.count c < folds)) then
    .error (.valueError ("n_splits cannot be greater than the number of members in each class"))
  else
    let seed := if shuffle then random_state.getD entropy else 0
    let n := labels.length
    .ok ((List.range folds).map (fun k =>
      ((List.range n).filter (fun i => decide (skfAssign seed folds labels i ≠ k)),
       (List.range n).filter (fun i => decide (skfAssign seed folds labels i = k)))))

/-- GetDataloader.get_data_split_folds (lines 208-221 of create_dataset.py):
StratifiedKFold with shuffle=True and random_state=69, projecting each fold's
train and validation index lists through samples and labels. -/
def get_data_split_folds (entropy folds : Nat) (samples : List (List Char))
    (labels : List Int) :
    Except PyErr
      (List (List (List Char) × List Int) × List (List (List Char) × List Int)) := do
  let fs ← skf_split folds true (some 69) entropy labels
  .ok (fs.map (fun f => (f.1.map (fun i => samples.getD i []),
                         f.1.map (fun i => labels.getD i 0))),
       fs.map (fun f => (f.2.map (fun i => samples.getD i []),
                         f.2.map (fun i => labels.getD i 0))))

/-- A persisted checkpoint record (lines 123-135 of train_classifier.py):
the state dict type is the abstract model parameter type M; is_best records
whether solver.save_checkpoint also wrote the best-marked copy. -/
structure Checkpoint (M : Type) where
  epoch : Nat
  state_dict : M
  max_score : ℚ
  is_best : Bool
deriving DecidableEq

/-- The end-of-epoch checkpoint loop of TrainVal.train (lines 115-135 of
train_classifier.py): k epochs remain, e is the next epoch number, best is
the running max_accuracy_valid; each epoch compares the validation accuracy
with > against best, updates it on strict improvement, and persists one
record holding the epoch number, the model state and the running maximum. -/
def train_checkpoints {M : Type} (val_acc : Nat → ℚ) (model_state : Nat → M) :
    Nat → Nat → ℚ → List (Checkpoint M)
  | 0, _, _ => []
  | k + 1, e, best =>
    let a := val_acc e
    let newBest := if best < a then a else best
    ⟨e, model_state e, newBest, decide (best < a)⟩ ::
      train_checkpoints val_acc model_state k (e + 1) newBest

/-- TrainVal.train, checkpoint view: epochs 1..E, max_accuracy_valid
initialized to 0 before the first epoch (line 69 of train_classifier.py);
val_acc e is the validation overall-accuracy the collaborator reports for
epoch e and model_state e the model parameters at the end of epoch e. -/
def TrainVal_train {M : Type} (val_acc : Nat → ℚ) (model_state : Nat → M)
    (E : Nat) : List (Checkpoint M) :=
  train_checkpoints val_acc model_state E 1 0

/-- The running maximum validation accuracy over the first k epochs,
initialized to 0: the best-seen-so-far of the spec. -/
def best_upto (val_acc : Nat → ℚ) : Nat → ℚ
  | 0 => 0
  | k + 1 =>
    let b := best_upto val_acc k
    if b < val_acc (k + 1) then val_acc (k + 1) else b

/-- One validation batch: the per-sample predicted labels (the collaborator
forward pass followed by softmax and argmax, abstracted), the ground-truth
labels, and the batch loss reported by the criterion. -/
structure ValBatch where
  preds : List Int
  labels : List Int
  loss : ℚ
deriving DecidableEq

/-- Modelled from the spec: the overall accuracy computed by the external
plot_confusion_matrix collaborator — the fraction of predictions matching
ground truth. -/
def overall_accuracy (preds labels : List Int) : ℚ :=
  ((preds.zip labels).countP (fun pl => decide (pl.1 = pl.2)) : ℚ) /
    (labels.length : ℚ)

/-- TrainVal.validation (lines 139-176 of train_classifier.py): accumulate
the per-batch losses and concatenate the prediction and label arrays over
the loader, compute the overall accuracy on the full epoch arrays, and
return (oa, epoch_loss / len(tbar)) where len(tbar) is the batch count. -/
def TrainVal_validation (batches : List ValBatch) : Except PyErr (ℚ × ℚ) :=
  let st := batches.foldl
    (fun st b => (st.1 + b.loss, st.2.1 ++ b.preds, st.2.2 ++ b.labels))
    ((0 : ℚ), ([] : List Int), ([] : List Int))
  let oa := overall_accuracy st.2.1 st.2.2
  (pydiv st.1 (batches.length : ℚ)).map (fun m => (oa, m))

/-- One training batch: images.size(0) and the summed correctness score the
collaborator get_classify_result reports for the batch. -/
structure TrainBatch where
  size : Nat
  corrects : ℚ
deriving DecidableEq

/-- The epoch-accuracy computation of TrainVal.train (lines 73-106 of
train_classifier.py): images_number and epoch_corrects accumulate over the
loader and epoch_acc is their quotient, with no guard on an empty loader. -/
def train_epoch_acc (batches : List TrainBatch) : Except PyErr ℚ :=
  let images_number := batches.foldl (fun a b => a + b.size) (0 : Nat)
  let epoch_corrects := batches.foldl (fun a b => a + b.corrects) (0 : ℚ)
  pydiv epoch_corrects (images_number : ℚ)

/-- A file name without a dot splits into the single segment holding the
whole name. -/
theorem pySplitChar_no_dot {f : List Char} (h : '.' ∉ f) :
    pySplitChar '.' f = [f] := by
  induction f with
  | nil => rfl
  | cons c rest ih =>
    have hc : ¬ c = '.' := fun hcc => h (hcc ▸ List.mem_cons_self c rest)
    have hr : '.' ∉ rest := fun hm => h (List.mem_cons_of_mem c hm)
    simp only [pySplitChar, if_neg hc, ih hr]

/-- If any listed name has no dot, the filter raises IndexError. -/
theorem selectTxtFiles_error_of_no_dot :
    ∀ (files : List (List Char)) (f : List Char), f ∈ files → '.' ∉ f →
      selectTxtFiles files = .error .indexError := by
  intro files
  induction files with
  | nil => intro f hf; exact absurd hf (List.not_mem_nil f)
  | cons g rest ih =>
    intro f hf hdot
    rcases List.mem_cons.mp hf with hfg | hfr
    · subst hfg
      simp only [selectTxtFiles, pySplitChar_no_dot hdot]
      rfl
    · show selectTxtFiles (g :: rest) = .error .indexError
      simp only [selectTxtFiles]
      cases hs : (pySplitChar '.' g).get? 1 with
      | none => rfl
      | some seg => rw [ih f hfr hdot]; rfl

/-- claim C10: with an empty training loader the epoch-accuracy computation
divides zero images into zero corrects and raises ZeroDivisionError, and with
an empty validation loader the returned mean loss divides the accumulated
loss by a zero batch count and raises ZeroDivisionError; neither loop guards
against an empty loader. -/
theorem claim_C10_empty_loader_division :
    train_epoch_acc [] = .error .zeroDivisionError ∧
      TrainVal_validation [] = .error .zeroDivisionError :=
  ⟨rfl, rfl⟩

/-- claim C6: both split modes pin random_state to 69, so the partitions they
produce do not depend on the ambient random-generator state: two invocations
on identical sample and label lists agree for any two entropy values. -/
theorem claim_C6_split_deterministic (e1 e2 : Nat) (ts : ℚ) (folds : Nat)
    (samples : List (List Char)) (labels : List Int) :
    get_data_split_single e1 ts samples labels =
        get_data_split_single e2 ts samples labels ∧
      get_data_split_folds e1 folds samples labels =
        get_data_split_folds e2 folds samples labels :=
  ⟨rfl, rfl⟩

/-- claim C4 is false of the code: the filter keeps every name whose second
dot-separated segment is txt, not the names whose extension is txt — the name
archive.txt.bak is selected and parsed even though its extension is bak, and
the name a.b.txt is skipped even though its extension is txt. -/
theorem claim_C4_filter_not_extension_based :
    selectTxtFiles [("archive.txt.bak").toList] =
        .ok [("archive.txt.bak").toList] ∧
      selectTxtFiles [("a.b.txt").toList] = .ok [] := by
  exact ⟨rfl, rfl⟩

/-- claim C9: a directory listing containing any dot-free file name makes the
sample index builder fail with IndexError while filtering, because the filter
reads the second dot-separated segment of each name; and consequently the
name archive.txt.bak is selected as an annotation file even though its
extension is not txt. -/
theorem claim_C9_filter_reads_second_segment :
    (∀ (files : List (List Char)) (f : List Char), f ∈ files → '.' ∉ f →
        selectTxtFiles files = .error .indexError) ∧
      selectTxtFiles [("archive.txt.bak").toList] =
        .ok [("archive.txt.bak").toList] :=
  ⟨selectTxtFiles_error_of_no_dot, rfl⟩

/-- Witness for claim C9 at a concrete listing: the dot-free name README
makes the filter raise IndexError. -/
theorem claim_C9_witness :
    selectTxtFiles [("README").toList] = .error .indexError :=
  claim_C9_filter_reads_second_segment.1 [("README").toList]
    (("README").toList) (List.mem_singleton.mpr rfl) (by decide)

/-- claim C7: constructing the dataloader provider with folds_split 1 and no
test_size raises the configuration ValueError inside the constructor whenever
the steps preceding the check — the sample index build and the label-names
open plus json.load — succeed; and whatever those steps do, the constructor
never returns a usable object with folds_split 1 and no test_size. -/
theorem claim_C7_missing_test_size {J : Type} (d : Dir)
    (lnl : Except PyErr J) (sl : List (List Char) × List Int) (lm : J)
    (h : get_samples_labels d = .ok sl) (hl : lnl = .ok lm) :
    GetDataloader_init d lnl 1 none =
        .error (.valueError
          ("You must specified test_size when folds_split equal to 1.")) ∧
      ∀ (lnl2 : Except PyErr J)
        (r : (List (List Char) × List Int) × J × Nat × Option ℚ),
        GetDataloader_init d lnl2 1 none ≠ .ok r := by
  constructor
  · subst hl
    simp only [GetDataloader_init, h, Except.bind, bind]
    rfl
  · intro lnl2 r hcontra
    cases lnl2 with
    | error e =>
      simp only [GetDataloader_init, h, Except.bind, bind] at hcontra
      exact absurd hcontra (by simp)
    | ok lm2 =>
      simp only [GetDataloader_init, h, Except.bind, bind] at hcontra
      exact absurd hcontra (by simp [falsyTestSize])

/-- Witness for claim C7: a directory with one annotation file of one line
and a successfully decoded label-names mapping, on which every step before
the configuration check succeeds and construction still fails. -/
theorem claim_C7_witness :
    GetDataloader_init
        ⟨[("ann.txt").toList], fun _ => [("img1.jpg, 0").toList]⟩
        (.ok [(("0").toList, ("cat").toList)]) 1 none =
      .error (.valueError
        ("You must specified test_size when folds_split equal to 1.")) :=
  (claim_C7_missing_test_size
    ⟨[("ann.txt").toList], fun _ => [("img1.jpg, 0").toList]⟩
    (.ok [(("0").toList, ("cat").toList)])
    ([("img1.jpg").toList], [0]) [(("0").toList, ("cat").toList)] rfl rfl).1

/-- Folding the validation accumulator over the batch list from any starting
state yields the summed loss and the concatenated full-epoch arrays. -/
theorem validation_foldl_closed (batches : List ValBatch) :
    ∀ (l : ℚ) (p la : List Int),
      batches.foldl
          (fun st b => (st.1 + b.loss, st.2.1 ++ b.preds, st.2.2 ++ b.labels))
          (l, p, la) =
        (l + (batches.map ValBatch.loss).sum,
         p ++ (batches.map ValBatch.preds).flatten,
         la ++ (batches.map ValBatch.labels).flatten) := by
  induction batches with
  | nil => intro l p la; simp
  | cons b rest ih =>
    intro l p la
    simp only [List.foldl_cons, List.map_cons, List.sum_cons, List.flatten, ih]
    refine congrArg₂ _ (by ring) (congrArg₂ _ ?_ ?_) <;> simp [List.append_assoc]

/-- claim C8: on every non-empty validation loader the validation phase
returns the pair (overall accuracy over all validation samples of the epoch,
accumulated loss divided by the number of batches) — the loss component is a
per-batch mean, dividing by the batch count rather than the sample count. -/
theorem claim_C8_validation_returns (batches : List ValBatch)
    (h : batches ≠ []) :
    TrainVal_validation batches =
      .ok (overall_accuracy ((batches.map ValBatch.preds).flatten)
             ((batches.map ValBatch.labels).flatten),
           ((batches.map ValBatch.loss).sum) / (batches.length : ℚ)) := by
  have hlen : (batches.length : ℚ) ≠ 0 := by
    exact_mod_cast fun hc => h (List.length_eq_zero.mp (by exact_mod_cast hc))
  simp only [TrainVal_validation, validation_foldl_closed, zero_add,
    List.nil_append, pydiv, if_neg hlen, Except.map]

/-- Witness for claim C8 on two concrete batches of unequal sizes. -/
theorem claim_C8_witness :
    (([⟨[0], [0], 1⟩, ⟨[1, 2], [1, 1], 2⟩] : List ValBatch) ≠ []) ∧
      TrainVal_validation [⟨[0], [0], 1⟩, ⟨[1, 2], [1, 1], 2⟩] =
        .ok (overall_accuracy
               (([⟨[0], [0], 1⟩, ⟨[1, 2], [1, 1], 2⟩] :
                  List ValBatch).map ValBatch.preds).flatten
               (([⟨[0], [0], 1⟩, ⟨[1, 2], [1, 1], 2⟩] :
                  List ValBatch).map ValBatch.labels).flatten,
             ((([⟨[0], [0], 1⟩, ⟨[1, 2], [1, 1], 2⟩] :
                  List ValBatch).map ValBatch.loss).sum) / 2) :=
  ⟨by decide, claim_C8_validation_returns _ (by decide)⟩

/-- The running maximum of the validation accuracies of epochs e, e+1, ...,
e+j-1, starting from the value m. -/
def chain_best (val_acc : Nat → ℚ) (m : ℚ) (e : Nat) : Nat → ℚ
  | 0 => m
  | j + 1 =>
    let b := chain_best val_acc m e j
    if b < val_acc (e + j) then val_acc (e + j) else b

/-- Peeling the first epoch off a chain of running maxima. -/
theorem chain_best_shift (va : Nat → ℚ) (m : ℚ) (e : Nat) :
    ∀ j, chain_best va m e (j + 1) = chain_best va (chain_best va m e 1) (e + 1) j := by
  intro j
  induction j with
  | zero => rfl
  | succ j ih =>
    show (if chain_best va m e (j + 1) < va (e + (j + 1)) then va (e + (j + 1))
          else chain_best va m e (j + 1)) =
         (if chain_best va (chain_best va m e 1) (e + 1) j < va (e + 1 + j)
          then va (e + 1 + j) else chain_best va (chain_best va m e 1) (e + 1) j)
    rw [ih, Nat.add_comm e (j + 1), Nat.add_comm (j + 1) e]
    have : e + (j + 1) = e + 1 + j := by omega
    rw [this]

/-- The checkpoint loop persists exactly one record per remaining epoch. -/
theorem train_checkpoints_length {M : Type} (va : Nat → ℚ) (st : Nat → M) :
    ∀ (k e : Nat) (m : ℚ), (train_checkpoints va st k e m).length = k := by
  intro k
  induction k with
  | zero => intro e m; rfl
  | succ k ih => intro e m; simp [train_checkpoints, ih]

/-- The i-th record persisted by the checkpoint loop: its epoch number, its
model state, its stored running maximum, and its best mark. -/
theorem train_checkpoints_get? {M : Type} (va : Nat → ℚ) (st : Nat → M) :
    ∀ (k e i : Nat) (m : ℚ), i < k →
      (train_checkpoints va st k e m).get? i =
        some ⟨e + i, st (e + i), chain_best va m e (i + 1),
              decide (chain_best va m e i < va (e + i))⟩ := by
  intro k
  induction k with
  | zero => intro e i m h; exact absurd h (Nat.not_lt_zero i)
  | succ k ih =>
    intro e i m h
    cases i with
    | zero => rfl
    | succ i =>
      have hik : i < k := Nat.lt_of_succ_lt_succ h
      show (train_checkpoints va st k (e + 1)
              (if m < va e then va e else m)).get? i = _
      rw [ih (e + 1) i (if m < va e then va e else m) hik]
      have h1 : e + (i + 1) = e + 1 + i := by omega
      have h2 : chain_best va m e (i + 1 + 1) =
          chain_best va (if m < va e then va e else m) (e + 1) (i + 1) := by
        have := chain_best_shift va m e (i + 1)
        simpa [chain_best] using this
      have h3 : chain_best va m e (i + 1) =
          chain_best va (if m < va e then va e else m) (e + 1) i := by
        have := chain_best_shift va m e i
        simpa [chain_best] using this
      rw [← h1, ← h2, ← h3]

/-- The spec's best-seen-so-far is the chain of running maxima started at 0
before epoch 1. -/
theorem best_upto_eq_chain (va : Nat → ℚ) :
    ∀ k, best_upto va k = chain_best va 0 1 k := by
  intro k
  induction k with
  | zero => rfl
  | succ k ih =>
    show (if best_upto va k < va (k + 1) then va (k + 1) else best_upto va k) =
         (if chain_best va 0 1 k < va (1 + k) then va (1 + k) else chain_best va 0 1 k)
    rw [ih, Nat.add_comm 1 k]

/-- claim C1: at the end of every epoch the controller persists a checkpoint
record holding the epoch number, the model state and the running-maximum
validation score; the record is marked best exactly when that epoch's
validation overall-accuracy strictly exceeds the best seen so far, which is
initialized to 0 before the first epoch, and an epoch whose accuracy equals
the running maximum is never marked best. -/
theorem claim_C1_checkpoint_each_epoch {M : Type} (va : Nat → ℚ) (st : Nat → M)
    (E i : Nat) (h : i < E) :
    (TrainVal_train va st E).length = E ∧
      (TrainVal_train va st E).get? i =
        some ⟨i + 1, st (i + 1), best_upto va (i + 1),
              decide (best_upto va i < va (i + 1))⟩ ∧
      (va (i + 1) = best_upto va i →
        (TrainVal_train va st E).get? i =
          some ⟨i + 1, st (i + 1), best_upto va i, false⟩) := by
  have hget : (TrainVal_train va st E).get? i =
      some ⟨i + 1, st (i + 1), best_upto va (i + 1),
            decide (best_upto va i < va (i + 1))⟩ := by
    rw [TrainVal_train, train_checkpoints_get? va st E 1 i 0 h,
      Nat.add_comm 1 i, ← best_upto_eq_chain, ← best_upto_eq_chain]
  refine ⟨train_checkpoints_length va st E 1 0, hget, fun htie => ?_⟩
  rw [hget]
  have hnlt : ¬ best_upto va i < va (i + 1) := by rw [htie]; exact lt_irrefl _
  have hb : best_upto va (i + 1) = best_upto va i := by
    show (if best_upto va i < va (i + 1) then va (i + 1) else best_upto va i) = _
    rw [if_neg hnlt]
  rw [hb, decide_eq_false hnlt]

/-- A concrete accuracy sequence that is constant, so epoch 1 improves on the
initial 0 and epoch 2 ties the running maximum. -/
def vaConst : Nat → ℚ := fun _ => 1

/-- Witness for claim C1: with a constant accuracy of 1 over 2 epochs, the
second epoch ties the running maximum and its record is not marked best. -/
theorem claim_C1_witness :
    (TrainVal_train vaConst (fun e => e) 2).get? 1 =
      some ⟨2, 2, best_upto vaConst 1, false⟩ :=
  (claim_C1_checkpoint_each_epoch vaConst (fun e => e) 2 1 (by decide)).2.2 (by decide)

/-- Any value below K is hit exactly once while counting over range K. -/
theorem countP_range_eq_val (a : Nat) :
    ∀ K, (List.range K).countP (fun k => decide (a = k)) =
      if a < K then 1 else 0 := by
  intro K
  induction K with
  | zero => rfl
  | succ K ih =>
    rw [List.range_succ, List.countP_append, ih]
    by_cases hK : a = K
    · subst hK
      simp [List.countP_cons, Nat.lt_irrefl]
    · by_cases hlt : a < K
      · have : a < K + 1 := by omega
        simp [List.countP_cons, hlt, this, hK]
      · have : ¬ a < K + 1 := by omega
        simp [List.countP_cons, hlt, this, hK]

/-- Any value below K differs from all but one entry of range K. -/
theorem countP_range_ne_val (a : Nat) :
    ∀ K, (List.range K).countP (fun k => decide (a ≠ k)) =
      K - (if a < K then 1 else 0) := by
  intro K
  induction K with
  | zero => rfl
  | succ K ih =>
    rw [List.range_succ, List.countP_append, ih]
    by_cases hK : a = K
    · subst hK
      simp [List.countP_cons, Nat.lt_irrefl]
    · by_cases hlt : a < K
      · have h1 : a < K + 1 := by omega
        have h2 : 1 ≤ K := by omega
        simp only [List.countP_cons, List.countP_nil, if_pos hlt, if_pos h1]
        simp [hK]
        omega
      · have : ¬ a < K + 1 := by omega
        simp only [List.countP_cons, List.countP_nil, if_neg hlt, if_neg this]
        simp [hK]

/-- claim C2: whenever the K-fold splitter succeeds with K > 1, each sample
index below the input length lies in the validation side of exactly one of
the K returned (train, validation) partitions and in the train side of
exactly K - 1 of them. -/
theorem claim_C2_fold_partition (folds entropy : Nat) (labels : List Int)
    (fs : List (List Nat × List Nat)) (i : Nat)
    (h : skf_split folds true (some 69) entropy labels = .ok fs)
    (hi : i < labels.length) :
    fs.length = folds ∧
      fs.countP (fun f => decide (i ∈ f.2)) = 1 ∧
      fs.countP (fun f => decide (i ∈ f.1)) = folds - 1 := by
  unfold skf_split at h
  by_cases hc1 : folds < 2
  · rw [if_pos hc1] at h; exact absurd h (by simp)
  rw [if_neg hc1] at h
  by_cases hc2 : labels.length < folds
  · rw [if_pos hc2] at h; exact absurd h (by simp)
  rw [if_neg hc2] at h
  by_cases hc3 : labels.any (fun c => decide (labels.count c < folds)) = true
  · rw [if_pos hc3] at h; exact absurd h (by simp)
  rw [if_neg hc3] at h
  have hfolds : 0 < folds := by omega
  have ha : skfAssign 69 folds labels i < folds := Nat.mod_lt _ hfolds
  simp only [eq_self_iff_true, if_true, Option.getD_some, Except.ok.injEq] at h
  subst h
  refine ⟨by simp, ?_, ?_⟩
  · rw [List.countP_map]
    trans ((List.range folds).countP
      (fun k => decide (skfAssign 69 folds labels i = k)))
    · refine List.countP_congr (fun k _ => ?_)
      simp [Function.comp, List.mem_filter, List.mem_range, hi]
    · rw [countP_range_eq_val, if_pos ha]
  · rw [List.countP_map]
    trans ((List.range folds).countP
      (fun k => decide (skfAssign 69 folds labels i ≠ k)))
    · refine List.countP_congr (fun k _ => ?_)
      simp [Function.comp, List.mem_filter, List.mem_range, hi]
    · rw [countP_range_ne_val, if_pos ha]

/-- Witness for claim C2: two folds over four samples of two classes. -/
theorem claim_C2_witness :
    (([([0, 2], [1, 3]), ([1, 3], [0, 2])] : List (List Nat × List Nat)).length = 2 ∧
      ([([0, 2], [1, 3]), ([1, 3], [0, 2])] :
          List (List Nat × List Nat)).countP (fun f => decide (0 ∈ f.2)) = 1 ∧
      ([([0, 2], [1, 3]), ([1, 3], [0, 2])] :
          List (List Nat × List Nat)).countP (fun f => decide (0 ∈ f.1)) = 2 - 1) :=
  claim_C2_fold_partition 2 0 [0, 0, 1, 1]
    [([0, 2], [1, 3]), ([1, 3], [0, 2])] 0 rfl (by decide)

/-- claim C3: in cross-validation mode, when some class has fewer members
than the fold count, the fold splitter raises an insufficiency ValueError
before any partitioning, so no partition is produced for such an input. -/
theorem claim_C3_insufficient_class (entropy folds : Nat)
    (samples : List (List Char)) (labels : List Int) (hK : 1 < folds)
    (h : ∃ c ∈ labels, labels.count c < folds) :
    ∃ s, get_data_split_folds entropy folds samples labels =
      .error (.valueError s) := by
  have hskf : ∃ s, skf_split folds true (some 69) entropy labels =
      .error (.valueError s) := by
    unfold skf_split
    rw [if_neg (by omega : ¬ folds < 2)]
    by_cases hlen : labels.length < folds
    · rw [if_pos hlen]; exact ⟨_, rfl⟩
    · rw [if_neg hlen]
      have hany : labels.any (fun c => decide (labels.count c < folds)) = true := by
        obtain ⟨c, hc, hcount⟩ := h
        exact List.any_eq_true.mpr ⟨c, hc, by simpa using hcount⟩
      rw [if_pos hany]; exact ⟨_, rfl⟩
  obtain ⟨s, hs⟩ := hskf
  exact ⟨s, by simp [get_data_split_folds, hs, Except.bind, bind]⟩

/-- Witness for claim C3: three folds requested while class 0 has only two
members. -/
theorem claim_C3_witness :
    ∃ s, get_data_split_folds 0 3 [] [0, 0, 1, 1, 1] = .error (.valueError s) :=
  claim_C3_insufficient_class 0 3 [] [0, 0, 1, 1, 1] (by decide)
    ⟨0, by decide, by decide⟩

/-- claim C5: for every test_size strictly between 0 and 1, the holdout-mode
split partitions the sample index set — train and validation indices are
disjoint, together they are a permutation of the full index range, and the
validation size is the rounding-up of test_size times the number of samples,
hence within one of test_size times the number of samples. -/
theorem claim_C5_holdout_partition (entropy : Nat) (ts : ℚ) (n : Nat)
    (h0 : 0 < ts) (h1 : ts < 1) :
    (train_test_split (some 69) entropy ts (List.range n)).1.Disjoint
        (train_test_split (some 69) entropy ts (List.range n)).2 ∧
      ((train_test_split (some 69) entropy ts (List.range n)).1 ++
          (train_test_split (some 69) entropy ts (List.range n)).2).Perm
        (List.range n) ∧
      (train_test_split (some 69) entropy ts (List.range n)).2.length =
        (⌈ts * (n : ℚ)⌉).toNat ∧
      0 ≤ ((train_test_split (some 69) entropy ts (List.range n)).2.length : ℚ)
          - ts * (n : ℚ) ∧
      ((train_test_split (some 69) entropy ts (List.range n)).2.length : ℚ)
          - ts * (n : ℚ) < 1 := by
  have hx0 : (0 : ℚ) ≤ ts * (n : ℚ) := mul_nonneg h0.le (Nat.cast_nonneg n)
  have hceil0 : (0 : ℤ) ≤ ⌈ts * (n : ℚ)⌉ := Int.ceil_nonneg hx0
  have hcast : (((⌈ts * (n : ℚ)⌉).toNat : ℚ)) = ((⌈ts * (n : ℚ)⌉ : ℤ) : ℚ) := by
    exact_mod_cast congrArg (fun z : ℤ => (z : ℚ)) (Int.toNat_of_nonneg hceil0)
  have hle : ts * (n : ℚ) ≤ ((n : ℤ) : ℚ) := by
    push_cast
    calc ts * (n : ℚ) ≤ 1 * (n : ℚ) :=
          mul_le_mul_of_nonneg_right h1.le (Nat.cast_nonneg n)
      _ = (n : ℚ) := one_mul _
  have hnt_le : (⌈ts * (n : ℚ)⌉).toNat ≤ n := Int.toNat_le.mpr (Int.ceil_le.mpr hle)
  have hperm : (seededShuffle 69 (List.range n)).Perm (List.range n) :=
    List.rotate_perm _ _
  have hnd : (seededShuffle 69 (List.range n)).Nodup :=
    hperm.nodup_iff.mpr (List.nodup_range n)
  have hlen : (seededShuffle 69 (List.range n)).length = n := by
    unfold seededShuffle
    rw [List.length_rotate, List.length_range]
  have hsplit : train_test_split (some 69) entropy ts (List.range n) =
      ((seededShuffle 69 (List.range n)).drop ((⌈ts * (n : ℚ)⌉).toNat),
       (seededShuffle 69 (List.range n)).take ((⌈ts * (n : ℚ)⌉).toNat)) := by
    unfold train_test_split
    rw [List.length_range]
    rfl
  rw [hsplit]
  refine ⟨(List.disjoint_take_drop hnd le_rfl).symm, ?_, ?_, ?_, ?_⟩
  · exact List.perm_append_comm.trans
      (by rw [List.take_append_drop]; exact hperm)
  · rw [List.length_take, hlen]
    exact Nat.min_eq_left hnt_le
  · rw [List.length_take, hlen, Nat.min_eq_left hnt_le, hcast]
    have := Int.le_ceil (ts * (n : ℚ))
    linarith
  · rw [List.length_take, hlen, Nat.min_eq_left hnt_le, hcast]
    have := Int.ceil_lt_add_one (ts * (n : ℚ))
    linarith

/-- Witness for claim C5: a half split of four indices. -/
theorem claim_C5_witness :
    (train_test_split (some 69) 0 (1 / 2) (List.range 4)).1.Disjoint
        (train_test_split (some 69) 0 (1 / 2) (List.range 4)).2 ∧
      ((train_test_split (some 69) 0 (1 / 2) (List.range 4)).1 ++
          (train_test_split (some 69) 0 (1 / 2) (List.range 4)).2).Perm
        (List.range 4) ∧
      (train_test_split (some 69) 0 (1 / 2) (List.range 4)).2.length =
        (⌈(1 / 2 : ℚ) * ((4 : Nat) : ℚ)⌉).toNat ∧
      0 ≤ ((train_test_split (some 69) 0 (1 / 2) (List.range 4)).2.length : ℚ)
          - (1 / 2 : ℚ) * ((4 : Nat) : ℚ) ∧
      ((train_test_split (some 69) 0 (1 / 2) (List.range 4)).2.length : ℚ)
          - (1 / 2 : ℚ) * ((4 : Nat) : ℚ) < 1 :=
  claim_C5_holdout_partition 0 (1 / 2) 4 (by norm_num) (by norm_num)
